import Mathlib

/-!
Shallow embedding of `tokenserver/crypto/pyworker.py`.

Time is modelled as `Nat` (Python's `time.time()` float timestamps; only
order and addition matter to the code).  Python `dict` state is modelled as
an association list so that states are concretely comparable.  Exceptions
are modelled by explicit result constructors.
-/

namespace Pyworker

/-! ### Association lists (the underlying Python `dict`) -/

/-- Lookup in an association list (Python `dict.__getitem__` result as an
`Option`). -/
def alookup {β : Type} : List (String × β) → String → Option β
  | [], _ => none
  | (k2, v) :: rest, k => if k2 = k then some v else alookup rest k

/-- Insert or replace a binding (Python `dict.__setitem__`). -/
def ainsert {β : Type} : List (String × β) → String → β → List (String × β)
  | [], k, v => [(k, v)]
  | (k2, v2) :: rest, k, v =>
      if k2 = k then (k, v) :: rest else (k2, v2) :: ainsert rest k v

/-- Remove a binding (Python `del d[k]`). -/
def aerase {β : Type} : List (String × β) → String → List (String × β)
  | [], _ => []
  | (k2, v2) :: rest, k => if k2 = k then rest else (k2, v2) :: aerase rest k

/-! ### `TTLedDict`

The Python class stores, under each key, the pair `(insert_date, value)`
where `insert_date` is `time.time()` at insertion.  `__getitem__` treats the
entry as expired when `insert_date != 0 and insert_date + self.ttl < now`,
deleting it and raising `ExpiredValue`; a plain miss raises `KeyError`.
`set_ttl` replaces the stored pair by `(ttl, value)`.  The `ttl` field is a
single store-wide default fixed at construction. -/

structure TTLedDict (α : Type) where
  ttl : Nat
  entries : List (String × Nat × α)
deriving DecidableEq, Repr

/-- Outcome of `TTLedDict.__getitem__`: the value, a `KeyError` miss, or an
`ExpiredValue` (which in Python subclasses `KeyError`). -/
inductive GetResult (α : Type) where
  | value : α → GetResult α
  | missing : GetResult α
  | expired : GetResult α
deriving DecidableEq, Repr

/-- `TTLedDict.__setitem__`: stamp the value with the current time. -/
def TTLedDict.setItem {α : Type} (d : TTLedDict α) (now : Nat) (k : String) (v : α) :
    TTLedDict α :=
  { d with entries := ainsert d.entries k (now, v) }

/-- `TTLedDict.__getitem__`: raise `KeyError` on a miss; if
`insert_date != 0 and insert_date + self.ttl < now`, delete the entry and
raise `ExpiredValue`; otherwise return the stored value.  Returns the
result together with the post-call store. -/
def TTLedDict.getItem {α : Type} (d : TTLedDict α) (now : Nat) (k : String) :
    GetResult α × TTLedDict α :=
  match alookup d.entries k with
  | none => (.missing, d)
  | some (insert_date, v) =>
      if insert_date ≠ 0 ∧ insert_date + d.ttl < now then
        (.expired, { d with entries := aerase d.entries k })
      else
        (.value v, d)

/-- `TTLedDict.__contains__`: calls `self[key]`, catching `KeyError` (which
covers `ExpiredValue`); hence it inherits `__getitem__`'s eviction side
effect. -/
def TTLedDict.containsKey {α : Type} (d : TTLedDict α) (now : Nat) (k : String) :
    Bool × TTLedDict α :=
  match d.getItem now k with
  | (.value _, d2) => (true, d2)
  | (_, d2) => (false, d2)

/-- `TTLedDict.set_ttl`: reads the raw stored pair (raising `KeyError`,
modelled as `none`, if absent) and writes back `(ttl, value)` — the first
slot, which `__getitem__` reads as the insertion date, now holds the new
ttl. -/
def TTLedDict.set_ttl {α : Type} (d : TTLedDict α) (k : String) (ttl : Nat) :
    Option (TTLedDict α) :=
  match alookup d.entries k with
  | none => none
  | some (_, v) => some { d with entries := ainsert d.entries k (ttl, v) }

/-! ### `CertificatesManagerWithCache`

`memory` is either `False` or a `TTLedDict` (here `Option (TTLedDict α)`,
`none` for `False`); `memcache` is either `False` or an external memcache
client, modelled as an association list with the client's `in` / `get` /
`__setitem__` as lookup / lookup / insert (its TTL handling is external).
The origin fetch `fetch_public_key` is an external capability, modelled as
a function `String → Option α`, `none` meaning the fetch raises. -/

structure CertificatesManagerWithCache (α : Type) where
  memory : Option (TTLedDict α)
  memcache : Option (List (String × α))
deriving DecidableEq, Repr

/-- Outcome of `CertificatesManagerWithCache.__getitem__`: a returned key,
a propagated origin-fetch failure, the `TypeError` raised by
`self.memory[hostname] = key` when `memory` is `False`, or a propagated
`KeyError` from re-reading memory (unreachable at a single instant). -/
inductive LookupResult (α : Type) where
  | ok : α → LookupResult α
  | fetchError : LookupResult α
  | typeError : LookupResult α
  | keyError : LookupResult α
deriving DecidableEq, Repr

/-- The origin branch of `__getitem__` (lines 122-130): call
`fetch_public_key`; on success write into memcache when `memcache is not
False` and into memory when `memory is not False`, then return the key.
The third component counts origin-fetch calls. -/
def fetchBranch {α : Type} (fetch : String → Option α) (now : Nat)
    (mem : Option (TTLedDict α)) (mc : Option (List (String × α)))
    (hostname : String) :
    LookupResult α × CertificatesManagerWithCache α × Nat :=
  match fetch hostname with
  | none => (.fetchError, ⟨mem, mc⟩, 1)
  | some key =>
      let mc2 := match mc with
        | none => none
        | some l => some (ainsert l hostname key)
      let mem2 := match mem with
        | none => none
        | some d => some (d.setItem now hostname key)
      (.ok key, ⟨mem2, mc2⟩, 1)

/-- The fall-through of `__getitem__` after the memory tier failed (lines
116-130): `if self.memcache and hostname in self.memcache`, return the
memcache value after writing it into memory (a `TypeError` when `memory`
is `False`), else the origin branch. -/
def sharedOrFetch {α : Type} (fetch : String → Option α) (now : Nat)
    (mem : Option (TTLedDict α)) (mc : Option (List (String × α)))
    (hostname : String) :
    LookupResult α × CertificatesManagerWithCache α × Nat :=
  match mc with
  | some l =>
      match alookup l hostname with
      | some key =>
          match mem with
          | none => (.typeError, ⟨none, some l⟩, 0)
          | some d => (.ok key, ⟨some (d.setItem now hostname key), some l⟩, 0)
      | none => fetchBranch fetch now mem (some l) hostname
  | none => fetchBranch fetch now mem none hostname

/-- `CertificatesManagerWithCache.__getitem__` (lines 106-130).
`if self.memory and hostname in self.memory: return self.memory[hostname]`:
the truthiness of a dict is non-emptiness, `in` runs
`TTLedDict.__contains__` (with its eviction side effect) and the `return`
re-runs `TTLedDict.__getitem__`.  Otherwise fall through to the shared
tier and origin. -/
def CertificatesManagerWithCache.getItem {α : Type} (fetch : String → Option α)
    (now : Nat) (m : CertificatesManagerWithCache α) (hostname : String) :
    LookupResult α × CertificatesManagerWithCache α × Nat :=
  match m.memory with
  | some mem =>
      if mem.entries.isEmpty then
        sharedOrFetch fetch now (some mem) m.memcache hostname
      else
        match mem.containsKey now hostname with
        | (true, mem1) =>
            match mem1.getItem now hostname with
            | (.value v, mem2) => (.ok v, ⟨some mem2, m.memcache⟩, 0)
            | (_, mem2) => (.keyError, ⟨some mem2, m.memcache⟩, 0)
        | (false, mem1) => sharedOrFetch fetch now (some mem1) m.memcache hostname
  | none => sharedOrFetch fetch now none m.memcache hostname

/-! ### `CryptoWorker.__call__`

The job payload decode and the handlers call external collaborators
(protobuf classes, browserid, hashlib); they are parameters: `registry` is
the key set of `PROTOBUF_CLASSES`, `parse` is `ParseFromString` plus
`ListFields` (`none` when parsing fails), and `handler` gives each
handler's outcome on the decoded fields.  `BrowserIDError` is never
imported or defined in `pyworker.py`, so when the `try` body raises, the
evaluation of the `except BrowserIDError` clause itself raises
`NameError`. -/

/-- A protobuf `Response`: `value` on success, `error_type`/`error` on the
(intended) error path. -/
structure Response where
  value : Option String
  error_type : Option String
  error : Option String
deriving DecidableEq, Repr

/-- Exceptions that `CryptoWorker.__call__` can let escape. -/
inductive PyExc where
  /-- `job.data.split('::', 1)` yielded one part; unpacking raises `ValueError`. -/
  | splitValueError : PyExc
  /-- `PROTOBUF_CLASSES[function_id]` raises `KeyError`. -/
  | keyError : PyExc
  /-- `raise ValueError('the function %s does not exists')`. -/
  | unknownFunction : PyExc
  /-- `raise ValueError('could not parse data')`. -/
  | parseError : PyExc
  /-- the unbound name `BrowserIDError` in the except clause. -/
  | nameError : PyExc
deriving DecidableEq, Repr

/-- What `__call__` produces: serialized bytes of a `Response`, or a raised
exception. -/
inductive CallOutcome where
  | encoded : Response → CallOutcome
  | raised : PyExc → CallOutcome
deriving DecidableEq, Repr

/-- Behaviour of a handler on decoded fields: a normal return, the
browserid domain error, or any other exception. -/
inductive HandlerOutcome where
  | returns : String → HandlerOutcome
  | raisesDomainError : String → HandlerOutcome
  | raisesOther : HandlerOutcome
deriving DecidableEq, Repr

/-- Split a character list at the leftmost occurrence of `::`. -/
def splitColons : List Char → Option (List Char × List Char)
  | [] => none
  | ':' :: ':' :: rest => some ([], rest)
  | c :: rest =>
      match splitColons rest with
      | none => none
      | some (pre, post) => some (c :: pre, post)

/-- `job.data.split('::', 1)` followed by unpacking into two names:
split at the leftmost occurrence of `::`; no occurrence means the unpack
raises `ValueError`. -/
def splitJobData (s : String) : Option (String × String) :=
  match splitColons s.data with
  | none => none
  | some (pre, post) => some (⟨pre⟩, ⟨post⟩)

/-- The attribute names defined on a `CryptoWorker` instance by
`pyworker.py` itself and found by `hasattr(self, function_id)`: the
instance attribute `certs` assigned in `__init__`, and the methods of the
class body — `__init__`, `__call__`, `error`, `check_signature`,
`check_signature_with_cert`, `derivate_key`.  Attributes inherited from
`object` (interpreter-dependent dunders such as `__class__`) are also
`hasattr`-visible; they are the explicit `inherited` parameter of
`CryptoWorker.call`. -/
def cryptoWorkerAttrs : List String :=
  ["certs", "__init__", "__call__", "error", "check_signature",
   "check_signature_with_cert", "derivate_key"]

/-- `CryptoWorker.__call__` (lines 166-188): split the job data, look up
`PROTOBUF_CLASSES[function_id]`, check `hasattr` (an attribute defined by
the module, or one of the externally supplied `object`-inherited attribute
names `inherited`), parse the payload, invoke the handler; a normal return
is wrapped as `resp_cls(value=res).SerializeToString()`, while any
exception from the handler hits `except BrowserIDError` whose unbound
name raises `NameError`. -/
def CryptoWorker.call (inherited registry : List String)
    (parse : String → String → Option (List (String × String)))
    (handler : String → List (String × String) → HandlerOutcome)
    (jobData : String) : CallOutcome :=
  match splitJobData jobData with
  | none => .raised .splitValueError
  | some (function_id, serialized_data) =>
      if function_id ∈ registry then
        if function_id ∈ cryptoWorkerAttrs ∨ function_id ∈ inherited then
          match parse function_id serialized_data with
          | none => .raised .parseError
          | some data =>
              match handler function_id data with
              | .returns res => .encoded ⟨some res, none, none⟩
              | .raisesDomainError _ => .raised .nameError
              | .raisesOther => .raised .nameError
        else .raised .unknownFunction
      else .raised .keyError

/-! ### Association-list lemmas -/

/-- Well-formedness of a Python-dict model: keys are pairwise distinct. -/
abbrev WF {β : Type} (l : List (String × β)) : Prop := (l.map Prod.fst).Nodup

theorem alookup_eq_none_of_not_mem {β : Type} (l : List (String × β)) (k : String)
    (h : k ∉ l.map Prod.fst) : alookup l k = none := by
  induction l with
  | nil => rfl
  | cons p rest ih =>
      obtain ⟨k2, v2⟩ := p
      simp only [List.map_cons, List.mem_cons] at h
      push_neg at h
      have hk : ¬(k2 = k) := fun hk => h.1 hk.symm
      simp only [alookup, if_neg hk]
      exact ih h.2

theorem alookup_ainsert_self {β : Type} (l : List (String × β)) (k : String) (v : β) :
    alookup (ainsert l k v) k = some v := by
  induction l with
  | nil => simp [ainsert, alookup]
  | cons p rest ih =>
      obtain ⟨k2, v2⟩ := p
      by_cases hk : k2 = k
      · simp [ainsert, hk, alookup]
      · simp [ainsert, hk, alookup, ih]

theorem alookup_ainsert_ne {β : Type} (l : List (String × β)) (k k2 : String) (v : β)
    (h : k2 ≠ k) : alookup (ainsert l k v) k2 = alookup l k2 := by
  have hkk2 : ¬(k = k2) := fun hk => h hk.symm
  induction l with
  | nil => simp [ainsert, alookup, hkk2]
  | cons p rest ih =>
      obtain ⟨k3, v3⟩ := p
      by_cases hk : k3 = k
      · subst hk
        simp [ainsert, alookup, hkk2]
      · simp only [ainsert, if_neg hk, alookup]
        by_cases hk2 : k3 = k2
        · simp [hk2]
        · simp [hk2, ih]

theorem alookup_aerase_self {β : Type} (l : List (String × β)) (k : String)
    (hwf : WF l) : alookup (aerase l k) k = none := by
  induction l with
  | nil => rfl
  | cons p rest ih =>
      obtain ⟨k2, v2⟩ := p
      rw [WF, List.map_cons, List.nodup_cons] at hwf
      by_cases hk : k2 = k
      · subst hk
        simp only [aerase, if_pos rfl]
        exact alookup_eq_none_of_not_mem rest k2 hwf.1
      · simp only [aerase, if_neg hk, alookup, if_neg hk]
        exact ih hwf.2

theorem alookup_aerase_ne {β : Type} (l : List (String × β)) (k k2 : String)
    (h : k2 ≠ k) : alookup (aerase l k) k2 = alookup l k2 := by
  have hkk2 : ¬(k = k2) := fun hk => h hk.symm
  induction l with
  | nil => rfl
  | cons p rest ih =>
      obtain ⟨k3, v3⟩ := p
      by_cases hk : k3 = k
      · subst hk
        simp [aerase, alookup, hkk2]
      · simp only [aerase, if_neg hk, alookup]
        by_cases hk2 : k3 = k2
        · simp [hk2]
        · simp [hk2, ih]

theorem entries_ne_nil_of_alookup {β : Type} (l : List (String × β)) (k : String)
    (b : β) (h : alookup l k = some b) : l.isEmpty = false := by
  cases l with
  | nil => exact absurd h (by simp [alookup])
  | cons p rest => rfl

/-! ### Claim C1 — `set_ttl` -/

/-- Claim C1 counterexample: in the store `⟨ttl 10, \x7b"k" ↦ (100, "v")\x7d⟩`,
`set_ttl "k" 5` leaves the stored pair `(5, "v")`: the insertion timestamp
100 is overwritten by the new ttl, and at time 103 (before the claimed
expiry 100 + 5) the entry is already reported expired, so expiry is not
measured from the original insertion time. -/
theorem set_ttl_clobbers_insertion_cex :
    TTLedDict.set_ttl (⟨10, [("k", (100, "v"))]⟩ : TTLedDict String) "k" 5 =
      some ⟨10, [("k", (5, "v"))]⟩ ∧
    ¬TTLedDict.set_ttl (⟨10, [("k", (100, "v"))]⟩ : TTLedDict String) "k" 5 =
      some ⟨10, [("k", (100, "v"))]⟩ ∧
    (TTLedDict.getItem (⟨10, [("k", (5, "v"))]⟩ : TTLedDict String) 103 "k").1 =
      GetResult.expired := by
  refine ⟨by decide, by decide, by decide⟩

/-- Claim C1 (amended): for a present key, `set_ttl(key, new_ttl)` preserves
the stored value and the rest of the store but replaces the entry's stored
timestamp by `new_ttl`; afterwards the entry is reported expired at time
`now` iff `new_ttl ≠ 0 ∧ new_ttl + store_ttl < now` — expiry is no longer
tied to the original insertion time.  For an absent key it fails with
`KeyError` (modelled as `none`). -/
theorem set_ttl_spec {α : Type} (d : TTLedDict α) (k : String) (newTtl : Nat) :
    (alookup d.entries k = none → TTLedDict.set_ttl d k newTtl = none) ∧
    (∀ t0 v, alookup d.entries k = some (t0, v) →
      TTLedDict.set_ttl d k newTtl = some ⟨d.ttl, ainsert d.entries k (newTtl, v)⟩ ∧
      alookup (ainsert d.entries k (newTtl, v)) k = some (newTtl, v) ∧
      (∀ k2, k2 ≠ k → alookup (ainsert d.entries k (newTtl, v)) k2 = alookup d.entries k2) ∧
      (∀ now, (TTLedDict.getItem ⟨d.ttl, ainsert d.entries k (newTtl, v)⟩ now k).1 =
        if newTtl ≠ 0 ∧ newTtl + d.ttl < now then GetResult.expired
        else GetResult.value v)) := by
  constructor
  · intro h
    simp [TTLedDict.set_ttl, h]
  · intro t0 v h
    refine ⟨by simp [TTLedDict.set_ttl, h], alookup_ainsert_self d.entries k (newTtl, v),
      fun k2 hk2 => alookup_ainsert_ne d.entries k k2 (newTtl, v) hk2, fun now => ?_⟩
    by_cases hc : newTtl ≠ 0 ∧ newTtl + d.ttl < now
    · simp [TTLedDict.getItem, alookup_ainsert_self, hc]
    · simp [TTLedDict.getItem, alookup_ainsert_self, hc]

/-- Witness for `set_ttl_spec` at the store `⟨ttl 10, \x7b"k" ↦ (100, "v")\x7d⟩`. -/
theorem set_ttl_spec_witness :
    TTLedDict.set_ttl (⟨10, [("k", (100, "v"))]⟩ : TTLedDict String) "k" 5 =
      some ⟨10, [("k", (5, "v"))]⟩ :=
  ((set_ttl_spec (⟨10, [("k", (100, "v"))]⟩ : TTLedDict String) "k" 5).2 100 "v"
    (by decide)).1

/-! ### Claim C2 — store ttl 0 -/

/-- Claim C2 (code bug): the class docstring promises that a ttl of 0 means
records never expire, but in a store constructed with `ttl = 0` an entry
inserted at time 5 is already deleted and reported `ExpiredValue` when read
at time 6, because `__getitem__` tests `insert_date != 0` rather than the
ttl. -/
theorem ttl_zero_entry_expires :
    TTLedDict.getItem (⟨0, [("k", (5, "v"))]⟩ : TTLedDict String) 6 "k" =
      (GetResult.expired, (⟨0, []⟩ : TTLedDict String)) := by decide

/-! ### Claim C4 — the expiry window -/

/-- Claim C4 counterexample: with store ttl 2 and an entry inserted at time
1, reading at time `3 = t0 + ttl` still returns the value (and leaves the
store untouched), whereas the claim says any time `≥ t0 + ttl` is reported
Expired: the code expires strictly after `t0 + ttl`. -/
theorem expiry_boundary_cex :
    TTLedDict.getItem (⟨2, [("k", (1, "v"))]⟩ : TTLedDict String) 3 "k" =
      (GetResult.value "v", (⟨2, [("k", (1, "v"))]⟩ : TTLedDict String)) := by decide

/-- Claim C4 (amended): in a well-formed store with ttl > 0, an entry
inserted at time `t0 ≠ 0` is returned unchanged at every time
`now ≤ t0 + ttl`, and at every time `now > t0 + ttl` the read deletes the
entry and signals Expired, after which the key is gone from the store. -/
theorem getItem_ttl_window {α : Type} (d : TTLedDict α) (k : String) (t0 : Nat) (v : α)
    (hwf : WF d.entries) (hl : alookup d.entries k = some (t0, v)) (ht0 : t0 ≠ 0)
    (_httl : 0 < d.ttl) :
    (∀ now, now ≤ t0 + d.ttl → TTLedDict.getItem d now k = (GetResult.value v, d)) ∧
    (∀ now, t0 + d.ttl < now →
      TTLedDict.getItem d now k = (GetResult.expired, ⟨d.ttl, aerase d.entries k⟩) ∧
      alookup (aerase d.entries k) k = none) := by
  constructor
  · intro now hnow
    have hc : ¬(t0 ≠ 0 ∧ t0 + d.ttl < now) := fun hcc => absurd hcc.2 (not_lt.mpr hnow)
    simp [TTLedDict.getItem, hl, hc]
  · intro now hnow
    refine ⟨?_, alookup_aerase_self d.entries k hwf⟩
    simp [TTLedDict.getItem, hl, ht0, hnow]

/-- Witness for `getItem_ttl_window`: store ttl 2, entry inserted at 1,
read at 4 > 3. -/
theorem getItem_ttl_window_witness :
    TTLedDict.getItem (⟨2, [("k", (1, "v"))]⟩ : TTLedDict String) 4 "k" =
      (GetResult.expired, (⟨2, []⟩ : TTLedDict String)) := by
  have h := (getItem_ttl_window (⟨2, [("k", (1, "v"))]⟩ : TTLedDict String) "k" 1 "v"
    (by decide) (by decide) (by decide) (by decide)).2 4 (by decide)
  exact h.1

/-! ### Claim C10 — `__contains__` evicts -/

/-- Claim C10: `contains` is not read-only: on a well-formed store holding
an expired entry, `contains` returns `false` and deletes the entry; the
same read observes Expired, and every later `get` of that key signals a
plain miss (never Expired again). -/
theorem contains_evicts_expired {α : Type} (d : TTLedDict α) (k : String) (t0 : Nat)
    (v : α) (now : Nat) (hwf : WF d.entries) (hl : alookup d.entries k = some (t0, v))
    (ht0 : t0 ≠ 0) (hexp : t0 + d.ttl < now) :
    TTLedDict.containsKey d now k = (false, ⟨d.ttl, aerase d.entries k⟩) ∧
    (TTLedDict.getItem d now k).1 = GetResult.expired ∧
    ∀ now2, TTLedDict.getItem ⟨d.ttl, aerase d.entries k⟩ now2 k =
      (GetResult.missing, ⟨d.ttl, aerase d.entries k⟩) := by
  have hget : TTLedDict.getItem d now k = (GetResult.expired, ⟨d.ttl, aerase d.entries k⟩) := by
    simp [TTLedDict.getItem, hl, ht0, hexp]
  refine ⟨?_, by rw [hget], fun now2 => ?_⟩
  · simp [TTLedDict.containsKey, hget]
  · have hnone : alookup (aerase d.entries k) k = none := alookup_aerase_self d.entries k hwf
    simp [TTLedDict.getItem, hnone]

/-- Witness for `contains_evicts_expired`: store ttl 2, entry inserted at
1, membership test at time 4. -/
theorem contains_evicts_expired_witness :
    TTLedDict.containsKey (⟨2, [("k", (1, "v"))]⟩ : TTLedDict String) 4 "k" =
      (false, (⟨2, []⟩ : TTLedDict String)) := by
  have h := contains_evicts_expired (⟨2, [("k", (1, "v"))]⟩ : TTLedDict String) "k" 1 "v" 4
    (by decide) (by decide) (by decide) (by decide)
  exact h.1

/-! ### Claim C5 — memory-tier hit -/

/-- Claim C5: when the memory tier holds a valid (present, unexpired) entry
for the hostname, lookup returns that value with the whole state unchanged
and zero origin-fetch calls — for every origin fetcher and every shared
tier, so neither is consulted. -/
theorem memory_hit_no_other_tier {α : Type} (fetch : String → Option α) (now : Nat)
    (mem : TTLedDict α) (mc : Option (List (String × α))) (hostname : String)
    (t0 : Nat) (v : α) (hl : alookup mem.entries hostname = some (t0, v))
    (hvalid : t0 = 0 ∨ now ≤ t0 + mem.ttl) :
    CertificatesManagerWithCache.getItem fetch now ⟨some mem, mc⟩ hostname =
      (LookupResult.ok v, ⟨some mem, mc⟩, 0) := by
  have hc : ¬(t0 ≠ 0 ∧ t0 + mem.ttl < now) := by
    rcases hvalid with h0 | hle
    · exact fun hcc => hcc.1 h0
    · exact fun hcc => absurd hcc.2 (not_lt.mpr hle)
  have hget : TTLedDict.getItem mem now hostname = (GetResult.value v, mem) := by
    simp [TTLedDict.getItem, hl, hc]
  have hcont : TTLedDict.containsKey mem now hostname = (true, mem) := by
    simp [TTLedDict.containsKey, hget]
  have hne : mem.entries.isEmpty = false :=
    entries_ne_nil_of_alookup mem.entries hostname (t0, v) hl
  simp [CertificatesManagerWithCache.getItem, hne, hcont, hget]

/-- Witness for `memory_hit_no_other_tier`: a valid entry inserted at 7
with store ttl 10, read at time 9, alongside a populated shared tier and a
fetcher that would return a different value. -/
theorem memory_hit_no_other_tier_witness :
    CertificatesManagerWithCache.getItem (fun _ => some "other") 9
      ⟨some ⟨10, [("h", (7, "v"))]⟩, some [("h", "shared")]⟩ "h" =
      (LookupResult.ok "v", ⟨some ⟨10, [("h", (7, "v"))]⟩, some [("h", "shared")]⟩, 0) :=
  memory_hit_no_other_tier (fun _ => some "other") 9 ⟨10, [("h", (7, "v"))]⟩
    (some [("h", "shared")]) "h" 7 "v" (by decide) (by decide)

/-! ### Claim C6 — shared-tier hit -/

/-- Claim C6: when the hostname is missing or expired in the (configured)
memory tier and the shared tier holds it, lookup returns the shared value,
writes exactly that value into the memory tier stamped with the current
time (so the memory tier's own default ttl governs it), leaves the shared
tier unchanged, and performs zero origin-fetch calls for every fetcher. -/
theorem shared_hit_populates_memory {α : Type} (fetch : String → Option α) (now : Nat)
    (mem : TTLedDict α) (mcl : List (String × α)) (hostname : String) (key : α)
    (hmem : alookup mem.entries hostname = none ∨
      ∃ t0 v, alookup mem.entries hostname = some (t0, v) ∧ t0 ≠ 0 ∧ t0 + mem.ttl < now)
    (hmc : alookup mcl hostname = some key) :
    ∃ mem2 : TTLedDict α,
      CertificatesManagerWithCache.getItem fetch now ⟨some mem, some mcl⟩ hostname =
        (LookupResult.ok key, ⟨some mem2, some mcl⟩, 0) ∧
      mem2.ttl = mem.ttl ∧ alookup mem2.entries hostname = some (now, key) := by
  rcases hmem with hmiss | ⟨t0, v, hl, ht0, hexp⟩
  · refine ⟨mem.setItem now hostname key, ?_, rfl,
      alookup_ainsert_self mem.entries hostname (now, key)⟩
    cases hne : mem.entries.isEmpty with
    | true =>
        simp [CertificatesManagerWithCache.getItem, hne, sharedOrFetch, hmc,
          TTLedDict.setItem]
    | false =>
        have hget : TTLedDict.getItem mem now hostname = (GetResult.missing, mem) := by
          simp [TTLedDict.getItem, hmiss]
        have hcont : TTLedDict.containsKey mem now hostname = (false, mem) := by
          simp [TTLedDict.containsKey, hget]
        simp [CertificatesManagerWithCache.getItem, hne, hcont, sharedOrFetch, hmc,
          TTLedDict.setItem]
  · refine ⟨TTLedDict.setItem ⟨mem.ttl, aerase mem.entries hostname⟩ now hostname key,
      ?_, rfl, alookup_ainsert_self _ hostname (now, key)⟩
    have hne : mem.entries.isEmpty = false :=
      entries_ne_nil_of_alookup mem.entries hostname (t0, v) hl
    have hget : TTLedDict.getItem mem now hostname =
        (GetResult.expired, ⟨mem.ttl, aerase mem.entries hostname⟩) := by
      simp [TTLedDict.getItem, hl, ht0, hexp]
    have hcont : TTLedDict.containsKey mem now hostname =
        (false, ⟨mem.ttl, aerase mem.entries hostname⟩) := by
      simp [TTLedDict.containsKey, hget]
    simp [CertificatesManagerWithCache.getItem, hne, hcont, sharedOrFetch, hmc]

/-- Witness for `shared_hit_populates_memory`: empty memory tier of ttl 10,
shared tier holding "h", at time 50, with a fetcher that would return a
different value. -/
theorem shared_hit_populates_memory_witness :
    ∃ mem2 : TTLedDict String,
      CertificatesManagerWithCache.getItem (fun _ => some "other") 50
        ⟨some ⟨10, []⟩, some [("h", "shared")]⟩ "h" =
        (LookupResult.ok "shared", ⟨some mem2, some [("h", "shared")]⟩, 0) ∧
      mem2.ttl = 10 ∧ alookup mem2.entries "h" = some (50, "shared") :=
  shared_hit_populates_memory (fun _ => some "other") 50 ⟨10, []⟩ [("h", "shared")]
    "h" "shared" (Or.inl (by decide)) (by decide)

/-! ### Reduction helpers for the tiered lookup -/

theorem getItem_of_memory_miss {α : Type} (fetch : String → Option α) (now : Nat)
    (d : TTLedDict α) (mc : Option (List (String × α))) (hostname : String)
    (hmiss : alookup d.entries hostname = none) :
    CertificatesManagerWithCache.getItem fetch now ⟨some d, mc⟩ hostname =
      sharedOrFetch fetch now (some d) mc hostname := by
  cases hne : d.entries.isEmpty with
  | true => simp [CertificatesManagerWithCache.getItem, hne]
  | false =>
      have hget : TTLedDict.getItem d now hostname = (GetResult.missing, d) := by
        simp [TTLedDict.getItem, hmiss]
      have hcont : TTLedDict.containsKey d now hostname = (false, d) := by
        simp [TTLedDict.containsKey, hget]
      simp [CertificatesManagerWithCache.getItem, hne, hcont]

theorem getItem_of_memory_expired {α : Type} (fetch : String → Option α) (now : Nat)
    (d : TTLedDict α) (mc : Option (List (String × α))) (hostname : String)
    (t0 : Nat) (v : α) (hl : alookup d.entries hostname = some (t0, v))
    (ht0 : t0 ≠ 0) (hexp : t0 + d.ttl < now) :
    CertificatesManagerWithCache.getItem fetch now ⟨some d, mc⟩ hostname =
      sharedOrFetch fetch now (some ⟨d.ttl, aerase d.entries hostname⟩) mc hostname := by
  have hne : d.entries.isEmpty = false :=
    entries_ne_nil_of_alookup d.entries hostname (t0, v) hl
  have hget : TTLedDict.getItem d now hostname =
      (GetResult.expired, ⟨d.ttl, aerase d.entries hostname⟩) := by
    simp [TTLedDict.getItem, hl, ht0, hexp]
  have hcont : TTLedDict.containsKey d now hostname =
      (false, ⟨d.ttl, aerase d.entries hostname⟩) := by
    simp [TTLedDict.containsKey, hget]
  simp [CertificatesManagerWithCache.getItem, hne, hcont]

theorem sharedOrFetch_of_miss {α : Type} (fetch : String → Option α) (now : Nat)
    (mem : Option (TTLedDict α)) (mc : Option (List (String × α))) (hostname : String)
    (hmc : ∀ l, mc = some l → alookup l hostname = none) :
    sharedOrFetch fetch now mem mc hostname = fetchBranch fetch now mem mc hostname := by
  cases mc with
  | none => rfl
  | some l => simp [sharedOrFetch, hmc l rfl]

theorem fetchBranch_count_one {α : Type} (fetch : String → Option α) (now : Nat)
    (mem : Option (TTLedDict α)) (mc : Option (List (String × α))) (hostname : String) :
    (fetchBranch fetch now mem mc hostname).2.2 = 1 := by
  cases hf : fetch hostname <;> simp [fetchBranch, hf]

theorem getItem_count_one_of_double_miss {α : Type} (fetch : String → Option α)
    (now : Nat) (mem : Option (TTLedDict α)) (mc : Option (List (String × α)))
    (hostname : String)
    (hmem : ∀ d, mem = some d → alookup d.entries hostname = none)
    (hmc : ∀ l, mc = some l → alookup l hostname = none) :
    (CertificatesManagerWithCache.getItem fetch now ⟨mem, mc⟩ hostname).2.2 = 1 := by
  cases mem with
  | none =>
      rw [show CertificatesManagerWithCache.getItem fetch now ⟨none, mc⟩ hostname =
            sharedOrFetch fetch now none mc hostname from rfl,
          sharedOrFetch_of_miss fetch now none mc hostname hmc]
      exact fetchBranch_count_one fetch now none mc hostname
  | some d =>
      rw [getItem_of_memory_miss fetch now d mc hostname (hmem d rfl),
          sharedOrFetch_of_miss fetch now (some d) mc hostname hmc]
      exact fetchBranch_count_one fetch now (some d) mc hostname

/-! ### Claim C7 — double miss goes to origin -/

/-- Claim C7: when the hostname is absent from the memory tier (if
configured) and from the shared tier (if configured), lookup calls the
origin fetcher exactly once; when the fetch succeeds, the value is
returned and written into every configured tier (stamped `now` in the
memory tier). -/
theorem double_miss_fetches_once {α : Type} (fetch : String → Option α) (now : Nat)
    (mem : Option (TTLedDict α)) (mc : Option (List (String × α))) (hostname : String)
    (hmem : ∀ d, mem = some d → alookup d.entries hostname = none)
    (hmc : ∀ l, mc = some l → alookup l hostname = none) :
    (CertificatesManagerWithCache.getItem fetch now ⟨mem, mc⟩ hostname).2.2 = 1 ∧
    ∀ key, fetch hostname = some key →
      CertificatesManagerWithCache.getItem fetch now ⟨mem, mc⟩ hostname =
        (LookupResult.ok key,
          ⟨Option.map (fun d => TTLedDict.setItem d now hostname key) mem,
           Option.map (fun l => ainsert l hostname key) mc⟩, 1) ∧
      (∀ d, mem = some d →
        alookup (TTLedDict.setItem d now hostname key).entries hostname =
          some (now, key)) ∧
      (∀ l, mc = some l → alookup (ainsert l hostname key) hostname = some key) := by
  have hred : CertificatesManagerWithCache.getItem fetch now ⟨mem, mc⟩ hostname =
      fetchBranch fetch now mem mc hostname := by
    cases mem with
    | none =>
        rw [show CertificatesManagerWithCache.getItem fetch now ⟨none, mc⟩ hostname =
              sharedOrFetch fetch now none mc hostname from rfl]
        exact sharedOrFetch_of_miss fetch now none mc hostname hmc
    | some d =>
        rw [getItem_of_memory_miss fetch now d mc hostname (hmem d rfl)]
        exact sharedOrFetch_of_miss fetch now (some d) mc hostname hmc
  refine ⟨hred ▸ fetchBranch_count_one fetch now mem mc hostname, fun key hf => ?_⟩
  refine ⟨?_, fun d _ => by
      simp [TTLedDict.setItem, alookup_ainsert_self],
    fun l _ => alookup_ainsert_self l hostname key⟩
  rw [hred]
  cases mem <;> cases mc <;> simp [fetchBranch, hf]

/-- Witness for `double_miss_fetches_once`: both tiers configured and
empty, fetch succeeds with "pubkey" at time 40. -/
theorem double_miss_fetches_once_witness :
    CertificatesManagerWithCache.getItem (fun _ => some "pubkey") 40
      ⟨some ⟨10, []⟩, some []⟩ "h" =
      (LookupResult.ok "pubkey",
        ⟨some ⟨10, [("h", (40, "pubkey"))]⟩, some [("h", "pubkey")]⟩, 1) := by
  have h := (double_miss_fetches_once (fun _ => some "pubkey") 40
    (some ⟨10, []⟩) (some []) "h"
    (fun d hd => by cases hd; rfl) (fun l hl => by cases hl; rfl)).2 "pubkey" rfl
  exact h.1

/-! ### Claim C8 — failed fetch -/

/-- Claim C8 counterexample: with a memory tier of ttl 1 holding an entry
for "h" inserted at time 1, an empty shared tier, and a failing fetcher,
lookup at time 5 propagates the failure but the memory tier is changed:
the expired entry for "h" was evicted by the membership test, so the
memory tier is not left unchanged as the claim states. -/
theorem failed_fetch_changes_memory_cex :
    CertificatesManagerWithCache.getItem (fun _ => (none : Option String)) 5
      ⟨some ⟨1, [("h", (1, "v"))]⟩, some []⟩ "h" =
      (LookupResult.fetchError, ⟨some ⟨1, []⟩, some []⟩, 1) ∧
    ¬(CertificatesManagerWithCache.getItem (fun _ => (none : Option String)) 5
        ⟨some ⟨1, [("h", (1, "v"))]⟩, some []⟩ "h").2.1 =
      ⟨some ⟨1, [("h", (1, "v"))]⟩, some []⟩ := by decide

/-- Claim C8 (amended): when the hostname misses (or is expired in) every
configured tier and the origin fetch fails, lookup propagates the failure
after exactly one fetch call and writes nothing: the shared tier is
exactly unchanged, and the memory tier is unchanged except that an
already-expired entry for the hostname is evicted — afterwards the
hostname is absent from the memory tier and every later lookup calls
origin again. -/
theorem failed_fetch_no_negative_caching {α : Type} (fetch : String → Option α)
    (now : Nat) (mem : Option (TTLedDict α)) (mc : Option (List (String × α)))
    (hostname : String)
    (hwf : ∀ d, mem = some d → WF d.entries)
    (hmem : ∀ d, mem = some d → (alookup d.entries hostname = none ∨
      ∃ t0 v, alookup d.entries hostname = some (t0, v) ∧ t0 ≠ 0 ∧ t0 + d.ttl < now))
    (hmc : ∀ l, mc = some l → alookup l hostname = none)
    (hfetch : fetch hostname = none) :
    ∃ mem2 : Option (TTLedDict α),
      CertificatesManagerWithCache.getItem fetch now ⟨mem, mc⟩ hostname =
        (LookupResult.fetchError, ⟨mem2, mc⟩, 1) ∧
      (mem = none → mem2 = none) ∧
      (∀ d, mem = some d → ∃ d2, mem2 = some d2 ∧ d2.ttl = d.ttl ∧
        alookup d2.entries hostname = none ∧
        ∀ k2, k2 ≠ hostname → alookup d2.entries k2 = alookup d.entries k2) ∧
      ∀ fetch2 now2,
        (CertificatesManagerWithCache.getItem fetch2 now2 ⟨mem2, mc⟩ hostname).2.2 = 1 := by
  cases mem with
  | none =>
      refine ⟨none, ?_, ?_, ?_, ?_⟩
      · rw [show CertificatesManagerWithCache.getItem fetch now ⟨none, mc⟩ hostname =
              sharedOrFetch fetch now none mc hostname from rfl,
            sharedOrFetch_of_miss fetch now none mc hostname hmc]
        simp [fetchBranch, hfetch]
      · intro _; rfl
      · intro d hd; exact Option.noConfusion hd
      · intro fetch2 now2
        exact getItem_count_one_of_double_miss fetch2 now2 none mc hostname
          (fun d hd => Option.noConfusion hd) hmc
  | some d =>
      rcases hmem d rfl with hmiss | ⟨t0, v, hl, ht0, hexp⟩
      · refine ⟨some d, ?_, ?_, ?_, ?_⟩
        · rw [getItem_of_memory_miss fetch now d mc hostname hmiss,
              sharedOrFetch_of_miss fetch now (some d) mc hostname hmc]
          simp [fetchBranch, hfetch]
        · intro h; exact Option.noConfusion h
        · intro d2 hd2
          cases Option.some.inj hd2
          exact ⟨d, rfl, rfl, hmiss, fun _ _ => rfl⟩
        · intro fetch2 now2
          exact getItem_count_one_of_double_miss fetch2 now2 (some d) mc hostname
            (fun d2 hd2 => by cases Option.some.inj hd2; exact hmiss) hmc
      · have hafter : alookup (aerase d.entries hostname) hostname = none :=
          alookup_aerase_self d.entries hostname (hwf d rfl)
        refine ⟨some ⟨d.ttl, aerase d.entries hostname⟩, ?_, ?_, ?_, ?_⟩
        · rw [getItem_of_memory_expired fetch now d mc hostname t0 v hl ht0 hexp,
              sharedOrFetch_of_miss fetch now (some ⟨d.ttl, aerase d.entries hostname⟩)
                mc hostname hmc]
          simp [fetchBranch, hfetch]
        · intro h; exact Option.noConfusion h
        · intro d2 hd2
          cases Option.some.inj hd2
          exact ⟨⟨d.ttl, aerase d.entries hostname⟩, rfl, rfl, hafter,
            fun k2 hk2 => alookup_aerase_ne d.entries hostname k2 hk2⟩
        · intro fetch2 now2
          exact getItem_count_one_of_double_miss fetch2 now2
            (some ⟨d.ttl, aerase d.entries hostname⟩) mc hostname
            (fun d2 hd2 => by cases Option.some.inj hd2; exact hafter) hmc

/-- Witness for `failed_fetch_no_negative_caching`: memory tier of ttl 1
holding an entry for "h" inserted at 1, empty shared tier, failing
fetcher, time 5. -/
theorem failed_fetch_no_negative_caching_witness :
    ∃ mem2 : Option (TTLedDict String),
      CertificatesManagerWithCache.getItem (fun _ => (none : Option String)) 5
        ⟨some ⟨1, [("h", (1, "v"))]⟩, some []⟩ "h" =
        (LookupResult.fetchError, ⟨mem2, some []⟩, 1) ∧
      (some (⟨1, [("h", (1, "v"))]⟩ : TTLedDict String) = none → mem2 = none) ∧
      (∀ d : TTLedDict String, some (⟨1, [("h", (1, "v"))]⟩ : TTLedDict String) = some d →
        ∃ d2 : TTLedDict String, mem2 = some d2 ∧
        d2.ttl = d.ttl ∧ alookup d2.entries "h" = none ∧
        ∀ k2, k2 ≠ "h" → alookup d2.entries k2 = alookup d.entries k2) ∧
      ∀ fetch2 now2,
        (CertificatesManagerWithCache.getItem fetch2 now2 ⟨mem2, some []⟩ "h").2.2 = 1 :=
  failed_fetch_no_negative_caching (fun _ => (none : Option String)) 5
    (some ⟨1, [("h", (1, "v"))]⟩) (some []) "h"
    (fun d hd => by cases hd; decide)
    (fun d hd => by cases hd; exact Or.inr ⟨1, "v", by decide, by decide, by decide⟩)
    (fun l hl => by cases hl; rfl) rfl

/-! ### Claim C3 — the error boundary of `__call__` -/

/-- Claim C3 (code bug): on a job for the registered handler
`check_signature`, a handler that raises the browserid domain error does
NOT yield an encoded error Response: `BrowserIDError` is an unbound name
in `pyworker.py`, so matching the `except` clause raises `NameError` and
the job fails; no outcome of the dispatcher on this input is an encoded
Response at all.  The success half of the claim does hold: a handler that
returns normally yields the serialized Response with `value` set and no
error fields. -/
theorem domain_error_raises_name_error :
    ∀ inherited : List String,
      CryptoWorker.call inherited ["check_signature"]
        (fun _ _ => some [("hostname", "h")])
        (fun _ _ => HandlerOutcome.raisesDomainError "certificate verification failed")
        "check_signature::payload" = CallOutcome.raised PyExc.nameError ∧
      (∀ r : Response,
        ¬CryptoWorker.call inherited ["check_signature"]
          (fun _ _ => some [("hostname", "h")])
          (fun _ _ => HandlerOutcome.raisesDomainError "certificate verification failed")
          "check_signature::payload" = CallOutcome.encoded r) ∧
      CryptoWorker.call inherited ["check_signature"]
        (fun _ _ => some [("hostname", "h")])
        (fun _ _ => HandlerOutcome.returns "ok")
        "check_signature::payload" =
        CallOutcome.encoded ⟨some "ok", none, none⟩ := by
  intro inherited
  have hcall : ∀ h : String → List (String × String) → HandlerOutcome,
      CryptoWorker.call inherited ["check_signature"]
        (fun _ _ => some [("hostname", "h")]) h "check_signature::payload" =
      (match h "check_signature" [("hostname", "h")] with
        | .returns res => CallOutcome.encoded ⟨some res, none, none⟩
        | .raisesDomainError _ => CallOutcome.raised PyExc.nameError
        | .raisesOther => CallOutcome.raised PyExc.nameError) := by
    intro h
    have hsplit : splitJobData "check_signature::payload" =
        some ("check_signature", "payload") := by decide
    simp only [CryptoWorker.call, hsplit]
    rw [if_pos (show "check_signature" ∈ ["check_signature"] from by decide),
        if_pos (Or.inl (show "check_signature" ∈ cryptoWorkerAttrs from by decide))]
  refine ⟨hcall _, fun r hr => ?_, hcall _⟩
  rw [hcall] at hr
  exact CallOutcome.noConfusion hr

/-! ### Claim C9 — unknown function id -/

/-- Claim C9: a job whose function id is known to the schema registry but
is not `hasattr`-visible on the worker — neither an attribute defined by
`pyworker.py` itself nor one of the `object`-inherited attribute names —
makes `__call__` raise the `ValueError('the function ... does not
exists')` before the handler `try` block: the failure propagates and is
never an encoded Response, whatever the payload, parser or handlers. -/
theorem unknown_function_propagates (inherited registry : List String)
    (parse : String → String → Option (List (String × String)))
    (handler : String → List (String × String) → HandlerOutcome)
    (jobData function_id serialized_data : String)
    (hsplit : splitJobData jobData = some (function_id, serialized_data))
    (hreg : function_id ∈ registry)
    (hno : function_id ∉ cryptoWorkerAttrs)
    (hninh : function_id ∉ inherited) :
    CryptoWorker.call inherited registry parse handler jobData =
      CallOutcome.raised PyExc.unknownFunction ∧
    ∀ r : Response, ¬CryptoWorker.call inherited registry parse handler jobData =
      CallOutcome.encoded r := by
  have hnot : ¬(function_id ∈ cryptoWorkerAttrs ∨ function_id ∈ inherited) :=
    fun hor => hor.elim hno hninh
  have h : CryptoWorker.call inherited registry parse handler jobData =
      CallOutcome.raised PyExc.unknownFunction := by
    simp only [CryptoWorker.call, hsplit]
    rw [if_pos hreg, if_neg hnot]
  exact ⟨h, fun r hr => by rw [h] at hr; exact CallOutcome.noConfusion hr⟩

/-- Witness for `unknown_function_propagates`: the id "frobnicate" is in
the schema registry but is neither a module-defined attribute of the
worker nor an inherited dunder. -/
theorem unknown_function_propagates_witness :
    CryptoWorker.call ["__class__", "__repr__", "__str__", "__hash__"]
      ["frobnicate"] (fun _ _ => some [])
      (fun _ _ => HandlerOutcome.returns "ok") "frobnicate::data" =
      CallOutcome.raised PyExc.unknownFunction :=
  (unknown_function_propagates ["__class__", "__repr__", "__str__", "__hash__"]
    ["frobnicate"] (fun _ _ => some [])
    (fun _ _ => HandlerOutcome.returns "ok") "frobnicate::data" "frobnicate" "data"
    (by decide) (by decide) (by decide) (by decide)).1

end Pyworker
